import Mathlib

/-!
Verification development for `scripts/ec2.py` of the dotfiles repository.

The script has two cores: a local result cache for instance listings
(`get_cache_filename`, `is_cache_valid`, `load_cache`, `save_cache`,
and their composition in `list_ec2_instances`) and an ordered
multi-candidate SSH connection resolver (`ssh_to_instance`), plus a
name filter built on `fnmatch` (`filter_instances_by_name`).

Modelling conventions:
* clock values and file modification times are integers (seconds);
  only their ordering is consulted by the code;
* the filesystem slice the cache touches is a map from paths to
  optional files plus a writability predicate (an unwritable path makes
  `open(..., 'w')` raise `IOError`);
* external primitives (the MD5 hex digest, the `ssh` subprocess, the
  boto3 session lookups) are passed in explicitly as parameters;
* Python truthiness of optional string arguments (`None` and `""` are
  falsy) is modelled by `truthy`.
-/

namespace EC2

/-- Python truthiness of an optional string value: `None` and `""` are falsy. -/
def truthy : Option String → Bool
  | none => false
  | some s => !s.isEmpty

/-- One instance record as built by `list_ec2_instances` (lines 240-248):
an absent public or private address is stored as the string "N/A". -/
structure Ec2Instance where
  name : String
  id : String
  status : String
  type : String
  public_ip : String
  private_ip : String
  region : String
deriving DecidableEq

/-- A cache entry as serialized by `save_cache` (lines 181-185). -/
structure CacheEntry where
  timestamp : Int
  region : String
  instances : List Ec2Instance
deriving DecidableEq

/-- Possible content of a cache file, as seen by `load_cache`: a JSON object
with an `instances` key, a JSON object without that key (`data.get` then
returns the default `[]`), valid JSON that is not an object (`data.get`
raises `AttributeError`), or text that `json.load` fails to parse. -/
inductive FileContent where
  | entryContent (e : CacheEntry)
  | objNoInstances
  | nonObjectJson
  | notJson
deriving DecidableEq

/-- A cache file on disk: its modification time (`os.path.getmtime`) and content. -/
structure CacheFile where
  mtime : Int
  content : FileContent
deriving DecidableEq

/-- The filesystem slice the cache uses: path contents, and which paths the
process can write (writing an unwritable path raises `IOError`). -/
structure FS where
  file : String → Option CacheFile
  writable : String → Bool

/-- `region.replace('-', '_')` (line 133). -/
def sanitize_region (r : String) : String :=
  String.mk (r.data.map fun c => if c = '-' then '_' else c)

/-- `hashlib.md5(f"{access_key}{secret_key}".encode()).hexdigest()[:8]`
(lines 118-120); `md5hex` abstracts the external MD5 hex digest. -/
def cred_hash8 (md5hex : String → String) (access_key secret_key : String) : String :=
  (md5hex (access_key ++ secret_key)).take 8

/-- `get_cache_filename` (lines 93-134). Ambient lookups are explicit
parameters: `sessionRegion` is `boto3.Session().region_name`, `metaRegion`
the result of the fallback client lookup folded with its `except: 'default'`
handler (lines 109-114), and `sessionCreds` the default credential pair when
resolvable (lines 123-130). -/
def get_cache_filename (md5hex : String → String) (sessionRegion : Option String)
    (metaRegion : String) (sessionCreds : Option (String × String))
    (region access_key secret_key : Option String) : String :=
  let r : String :=
    if truthy region then region.getD ""
    else if truthy sessionRegion then sessionRegion.getD ""
    else metaRegion
  let ch : String :=
    if truthy access_key && truthy secret_key then
      cred_hash8 md5hex (access_key.getD "") (secret_key.getD "")
    else
      match sessionCreds with
      | some (a, s) => cred_hash8 md5hex a s
      | none => "nocreds"
  "/tmp/ec2_cache_" ++ sanitize_region r ++ "_" ++ ch ++ ".json"

/-- `is_cache_valid` (lines 137-152): the file exists and
`time.time() - os.path.getmtime(cache_file) < ttl` (strict). -/
def is_cache_valid (fs : FS) (now : Int) (cache_file : String) (ttl : Int) : Bool :=
  match fs.file cache_file with
  | none => false
  | some f => decide (now - f.mtime < ttl)

/-- Result of `load_cache`: the returned value (`ok` a list, `err` for the
returned `None`), or an exception that escapes the function. -/
inductive LoadResult where
  | ok (instances : List Ec2Instance)
  | err
  | raised
deriving DecidableEq

/-- `load_cache` (lines 155-169). `open` on a missing path raises `IOError`
(caught, returns `None`); unparseable text raises `json.JSONDecodeError`
(caught, returns `None`); `data.get` on a non-object JSON value raises
`AttributeError`, which is NOT in the except clause and escapes. -/
def load_cache (fs : FS) (cache_file : String) : LoadResult :=
  match fs.file cache_file with
  | none => .err
  | some f =>
    match f.content with
    | .entryContent e => .ok e.instances
    | .objNoInstances => .ok []
    | .nonObjectJson => .raised
    | .notJson => .err

/-- `save_cache` (lines 172-190): writes a fresh entry whose `timestamp` field
is the current time; the write also stamps the file's mtime with that time.
An `IOError` is swallowed, leaving the filesystem unchanged. -/
def save_cache (fs : FS) (now : Int) (cache_file : String)
    (instances : List Ec2Instance) (region : String) : FS :=
  if fs.writable cache_file then
    { fs with file := fun f =>
        if f = cache_file then some ⟨now, .entryContent ⟨now, region, instances⟩⟩
        else fs.file f }
  else fs

/-- Result of the cache-read path: a hit with a list, a miss, or an escaping
exception. -/
inductive ReadResult where
  | hit (instances : List Ec2Instance)
  | miss
  | raised
deriving DecidableEq

/-- The cache read operation as performed by `list_ec2_instances`
(lines 225-229): `is_cache_valid` guards `load_cache`; an invalid cache and
any absorbed `load_cache` error are treated as a miss. -/
def cache_read (fs : FS) (now : Int) (cache_file : String) (ttl : Int) : ReadResult :=
  if is_cache_valid fs now cache_file ttl then
    match load_cache fs cache_file with
    | .ok l => .hit l
    | .err => .miss
    | .raised => .raised
  else .miss

/-- The entry stored at a path, when the path holds a well-formed cache entry. -/
def storedEntry (fs : FS) (cache_file : String) : Option CacheEntry :=
  match fs.file cache_file with
  | none => none
  | some f =>
    match f.content with
    | .entryContent e => some e
    | _ => none

/-- The path holds nothing, or a well-formed entry whose recorded `timestamp`
agrees with the file's mtime — true of every file `save_cache` produces,
which stamps both with the same clock value. -/
def EntryAt (fs : FS) (cache_file : String) : Prop :=
  ∀ f, fs.file cache_file = some f →
    ∃ e, f.content = FileContent.entryContent e ∧ e.timestamp = f.mtime

/-- `list_ec2_instances` (lines 209-260). The AWS query (lines 234-249) is
abstracted as the already-transformed list `fetched` that a successful
`describe_instances` call yields; `clientRegion` is `ec2.meta.region_name` of
the created client. The result is `none` when the uncaught `AttributeError`
of `load_cache` propagates, otherwise the returned list paired with the
resulting filesystem. The cache validity check uses the default TTL of 300
seconds (line 225). -/
def list_ec2_instances (md5hex : String → String) (sessionRegion : Option String)
    (metaRegion : String) (sessionCreds : Option (String × String)) (clientRegion : String)
    (region access_key secret_key : Option String) (use_cache : Bool)
    (fs : FS) (now : Int) (fetched : List Ec2Instance) :
    Option (List Ec2Instance × FS) :=
  let cache_file := get_cache_filename md5hex sessionRegion metaRegion sessionCreds
    region access_key secret_key
  let storedRegion := if truthy region then region.getD "" else clientRegion
  let refresh : Option (List Ec2Instance × FS) :=
    some (fetched, if use_cache then save_cache fs now cache_file fetched storedRegion else fs)
  if use_cache && is_cache_valid fs now cache_file 300 then
    match load_cache fs cache_file with
    | .ok l => some (l, fs)
    | .err => refresh
    | .raised => Option.none
  else refresh

/-- A stand-in for the MD5 hex digest, used only in closed evaluations. -/
def md5Stub (s : String) : String := s ++ "0123456789abcdef0123456789abcdef"

/-- The empty, everywhere-writable filesystem. -/
def fsEmpty : FS := { file := fun _ => Option.none, writable := fun _ => true }

/-- A concrete instance record used in closed evaluations. -/
def inst1 : Ec2Instance :=
  { name := "web-1", id := "i-01", status := "running", type := "t2.micro"
    public_ip := "1.2.3.4", private_ip := "10.0.0.5", region := "us-east-1" }

/-- A filesystem holding one fresh well-formed entry, used in closed evaluations. -/
def fsC1 : FS :=
  { file := fun f =>
      if f = "/tmp/ec2_cache_us_east_1_00000000.json" then
        some ⟨1000, .entryContent ⟨1000, "us-east-1", [inst1]⟩⟩
      else Option.none
    writable := fun _ => true }

/-- Claim C1: for every cache path and TTL, the cache read returns the stored
instance sequence iff a stored entry exists and `now - entry.timestamp < ttl`
(strict; the caller passes the default of 300 seconds); otherwise it is a
miss. The path is assumed to hold nothing or a well-formed entry as stamped
by `save_cache`. -/
theorem cache_read_iff_fresh_entry (fs : FS) (now : Int) (cache_file : String) (ttl : Int)
    (h : EntryAt fs cache_file) :
    cache_read fs now cache_file ttl =
      match storedEntry fs cache_file with
      | some e =>
        if now - e.timestamp < ttl then ReadResult.hit e.instances else ReadResult.miss
      | none => ReadResult.miss := by
  unfold cache_read is_cache_valid load_cache storedEntry
  cases hf : fs.file cache_file with
  | none => simp
  | some f =>
    obtain ⟨e, hc, ht⟩ := h f hf
    by_cases hlt : now - f.mtime < ttl <;> simp [hc, ht, hlt]

/-- Closed witness for claim C1: on a filesystem holding one fresh entry the
read is a hit with the stored list. -/
theorem cache_read_iff_fresh_entry_witness :
    cache_read fsC1 1100 "/tmp/ec2_cache_us_east_1_00000000.json" 300
      = ReadResult.hit [inst1] := by
  have h : EntryAt fsC1 "/tmp/ec2_cache_us_east_1_00000000.json" := by
    intro f hf
    have hv : fsC1.file "/tmp/ec2_cache_us_east_1_00000000.json"
        = some ⟨1000, FileContent.entryContent ⟨1000, "us-east-1", [inst1]⟩⟩ := rfl
    rw [hv] at hf
    injection hf with hf
    rw [← hf]
    exact ⟨⟨1000, "us-east-1", [inst1]⟩, rfl, rfl⟩
  have h2 := cache_read_iff_fresh_entry fsC1 1100
    "/tmp/ec2_cache_us_east_1_00000000.json" 300 h
  rw [h2]
  rfl

/-- Claim C2, counterexample: with the bypass forced (`use_cache = false`), a
successful fetch is NOT written back — the listing call returns the
filesystem unchanged, and the cache path still holds no file afterwards,
contrary to "the result is still written to the cache". -/
theorem list_bypass_counterexample :
    list_ec2_instances md5Stub Option.none "default" Option.none "us-east-1"
        (some "us-east-1") (some "AK") (some "SK") false fsEmpty 1000 [inst1]
      = some ([inst1], fsEmpty)
    ∧ fsEmpty.file (get_cache_filename md5Stub Option.none "default" Option.none
        (some "us-east-1") (some "AK") (some "SK")) = Option.none :=
  ⟨rfl, rfl⟩

/-- Claim C2 as amended: under forced bypass the cache is treated as a miss —
the freshly fetched result is returned regardless of any stored entry — but
nothing is written back: the filesystem is returned unchanged. -/
theorem list_bypass_miss_and_no_write (md5hex : String → String)
    (sessionRegion : Option String) (metaRegion : String)
    (sessionCreds : Option (String × String)) (clientRegion : String)
    (region access_key secret_key : Option String)
    (fs : FS) (now : Int) (fetched : List Ec2Instance) :
    list_ec2_instances md5hex sessionRegion metaRegion sessionCreds clientRegion
        region access_key secret_key false fs now fetched = some (fetched, fs) := rfl

/-- A filesystem holding one file of valid non-object JSON and one of
unparseable text, nothing writable; used in closed evaluations. -/
def fsBadJson : FS :=
  { file := fun f =>
      if f = "/tmp/ec2_cache_default_nocreds.json" then some ⟨0, .nonObjectJson⟩
      else if f = "/tmp/unparseable.json" then some ⟨0, .notJson⟩
      else Option.none
    writable := fun _ => false }

/-- Claim C7: a missing file and undecodable text are absorbed into a returned
`None` (miss), and a failed write is swallowed, leaving the filesystem
unchanged — but a cache file holding valid JSON that is not an object
(malformed content for this cache) makes `data.get` raise an uncaught
`AttributeError`, which escapes to the caller, contradicting the claim and
the docstring "List of instances or None if error". -/
theorem load_cache_error_handling :
    load_cache fsBadJson "/tmp/missing.json" = LoadResult.err
    ∧ load_cache fsBadJson "/tmp/unparseable.json" = LoadResult.err
    ∧ load_cache fsBadJson "/tmp/ec2_cache_default_nocreds.json" = LoadResult.raised
    ∧ save_cache fsBadJson 5 "/tmp/out.json" [inst1] "us-east-1" = fsBadJson := by
  refine ⟨by decide, by decide, by decide, ?_⟩
  unfold save_cache fsBadJson
  rfl

/-- Claim C8: a cache read within the TTL after a write for the same path
returns exactly the written sequence, unmodified (the write is assumed to
have persisted, i.e. the path is writable). -/
theorem cache_write_read_roundtrip (fs : FS) (t now : Int) (cache_file : String)
    (instances : List Ec2Instance) (region : String) (ttl : Int)
    (hw : fs.writable cache_file = true) (hfresh : now - t < ttl) :
    cache_read (save_cache fs t cache_file instances region) now cache_file ttl
      = ReadResult.hit instances := by
  unfold cache_read is_cache_valid load_cache save_cache
  simp [hw, hfresh]

/-- Closed witness for claim C8: write at time 50, read at time 100 with TTL
300 returns the written list. -/
theorem cache_write_read_roundtrip_witness :
    cache_read (save_cache fsEmpty 50 "/tmp/c.json" [inst1] "us-east-1") 100
      "/tmp/c.json" 300 = ReadResult.hit [inst1] :=
  cache_write_read_roundtrip fsEmpty 50 100 "/tmp/c.json" [inst1] "us-east-1" 300
    rfl (by decide)

/-- Bool test that `p` is an initial segment of `s`. -/
def isStart : List Char → List Char → Bool
  | [], _ => true
  | _ :: _, [] => false
  | c :: p, d :: s => c == d && isStart p s

/-- Bool test that `p` occurs as a contiguous run inside `s`
(Python `p in s` on strings). -/
def hasSub : List Char → List Char → Bool
  | [], p => isStart p []
  | c :: s, p => isStart p (c :: s) || hasSub s p

/-- Python `str.lower()` on the ASCII fragment the script manipulates. -/
def lowerStr (s : String) : String := String.mk (s.data.map Char.toLower)

/-- Environment and external effects consulted by `ssh_to_instance`:
`keyExists` is `os.path.exists`, `run` the exit status of a synchronously
run command, `tmuxSet` whether the TMUX variable is present, `verbose` the
EC2_SSH_VERBOSE truthiness test of line 417, and the two credential
environment variables (`''` when unset). -/
structure SSHEnv where
  keyExists : String → Bool
  run : List String → Int
  tmuxSet : Bool
  verbose : Bool
  ec2_username : String
  ec2_sshkey : String

/-- `is_tmux_session` (lines 318-324). -/
def is_tmux_session (env : SSHEnv) : Bool := env.tmuxSet

/-- Comma-splitting with per-item strip and empty filtering (lines 340-341). -/
def parse_csv (s : String) : List String :=
  ((s.splitOn ",").map String.trim).filter (fun x => !x.isEmpty)

/-- `get_ssh_credentials` (lines 327-349): the cross product
usernames × key files from the two environment variables; a blank
EC2_USERNAME gives the empty list, a blank EC2_SSHKEY pairs every username
with no key file. -/
def get_ssh_credentials (env_users env_keys : String) : List (String × Option String) :=
  let env_users := env_users.trim
  let env_keys := env_keys.trim
  if env_users.isEmpty then []
  else
    let usernames := parse_csv env_users
    let keyfiles : List (Option String) :=
      if env_keys.isEmpty then [Option.none] else (parse_csv env_keys).map some
    usernames.flatMap (fun u => keyfiles.map (fun k => (u, k)))

/-- `guess_ssh_user` (lines 352-369): substring tests on the lowered name. -/
def guess_ssh_user (inst : Ec2Instance) : String :=
  let n := (lowerStr inst.name).data
  if hasSub n "ubuntu".data then "ubuntu"
  else if hasSub n "centos".data then "centos"
  else if hasSub n "debian".data then "admin"
  else "ec2-user"

/-- Python `str.split()`: split on whitespace runs, dropping empty pieces. -/
def split_ws (s : String) : List String :=
  (s.split Char.isWhitespace).filter (fun x => !x.isEmpty)

/-- The `ssh_cmd` list assembled in lines 413-435; `key` is attached only
when the loop found it on disk. -/
def build_ssh_cmd (env : SSHEnv) (ip : String) (port : Int) (ssh_opts : String)
    (user : String) (key : Option String) : List String :=
  ["ssh"]
    ++ (if env.verbose then ["-v"] else [])
    ++ ["-o", "ConnectTimeout=10", "-o", "StrictHostKeyChecking=no"]
    ++ (match key with | some k => ["-i", k] | none => [])
    ++ (if port ≠ 22 then ["-p", toString port] else [])
    ++ (if ssh_opts.isEmpty then [] else split_ws ssh_opts)
    ++ [user ++ "@" ++ ip]

/-- Observable connection actions of the resolver: a synchronous `ssh` run
for a candidate, or a fire-and-forget tmux window handoff for a candidate. -/
inductive SSHEvent where
  | attempt (user : String) (key : Option String)
  | handoff (user : String) (key : Option String)
deriving DecidableEq

/-- A candidate is skipped when its key path is given but absent on disk
(lines 423-427). Empty-string key arguments, which Python treats as falsy
(no key attached, no skip), are modelled as `none`. -/
def skip_cand (env : SSHEnv) : String × Option String → Bool
  | (_, some kf) => !env.keyExists kf
  | (_, none) => false

/-- Exit status of the `ssh` run for a (non-skipped) candidate (line 457). -/
def cand_status (env : SSHEnv) (ip : String) (port : Int) (ssh_opts : String)
    (c : String × Option String) : Int :=
  env.run (build_ssh_cmd env ip port ssh_opts c.1 c.2)

/-- The credential loop of `ssh_to_instance` (lines 412-470), returning the
reported result and the ordered log of connection actions. A skipped
candidate (missing key) only moves the loop on; in tmux mode the candidate's
command is delegated to a new window and `True` returned at once
(lines 445-453); otherwise the `ssh` run is awaited, a zero exit ending the
loop with `True` (lines 457-461) and a non-zero exit moving on (the
`.index` test of line 464 only selects the progress message — the loop
advances either way); an exhausted list returns `False` (lines 468-470). -/
def ssh_attempt_loop (env : SSHEnv) (ip : String) (port : Int) (ssh_opts : String)
    (useTmux : Bool) : List (String × Option String) → Bool × List SSHEvent
  | [] => (false, [])
  | c :: rest =>
    if skip_cand env c then ssh_attempt_loop env ip port ssh_opts useTmux rest
    else if useTmux then (true, [.handoff c.1 c.2])
    else if cand_status env ip port ssh_opts c = 0 then (true, [.attempt c.1 c.2])
    else
      let r := ssh_attempt_loop env ip port ssh_opts useTmux rest
      (r.1, .attempt c.1 c.2 :: r.2)

/-- Address selection (lines 384-390): prefer the public address, fall back
to the private one, else nothing. -/
def select_ip (inst : Ec2Instance) : Option String :=
  if inst.public_ip ≠ "N/A" then some inst.public_ip
  else if inst.private_ip ≠ "N/A" then some inst.private_ip
  else Option.none

/-- The candidate list built in lines 392-409: the explicit user (paired with
the explicit key argument), else the environment cross product, else a
guessed user paired with the explicit key argument. -/
def build_ssh_attempts (env : SSHEnv) (inst : Ec2Instance)
    (user key_file : Option String) : List (String × Option String) :=
  if truthy user then [(user.getD "", key_file)]
  else
    let envc := get_ssh_credentials env.ec2_username env.ec2_sshkey
    if envc.isEmpty then [(guess_ssh_user inst, key_file)] else envc

/-- `ssh_to_instance` (lines 372-470): select an address (immediate failure
with no connection action when both are "N/A", lines 384-390), resolve the
tmux decision (line 443, hoisted: it is loop-invariant), build the candidate
list and run the loop. -/
def ssh_to_instance (env : SSHEnv) (inst : Ec2Instance) (user key_file : Option String)
    (port : Int) (ssh_opts : String) (use_tmux : Option Bool) : Bool × List SSHEvent :=
  match select_ip inst with
  | none => (false, [])
  | some ip =>
    ssh_attempt_loop env ip port ssh_opts (use_tmux.getD (is_tmux_session env))
      (build_ssh_attempts env inst user key_file)

/-- One linear pass over the candidates: drop the skipped ones, stop at (and
include) the first successful one. -/
def first_pass (skip succ : String × Option String → Bool) :
    List (String × Option String) → List (String × Option String)
  | [] => []
  | c :: rest =>
    if skip c then first_pass skip succ rest
    else if succ c then [c]
    else c :: first_pass skip succ rest

/-- Claim C3: in direct (non-tmux) mode the resolver makes exactly one linear
pass over the candidate list: it attempts precisely the non-skipped
candidates up to and including the first one whose `ssh` run exits 0 — in
list order, each once, none after the success — and reports success iff such
a candidate exists; with every candidate skipped or failing it attempts each
non-skipped candidate once and reports failure. -/
theorem ssh_loop_single_pass (env : SSHEnv) (ip : String) (port : Int)
    (ssh_opts : String) (l : List (String × Option String)) :
    ssh_attempt_loop env ip port ssh_opts false l =
      (l.any (fun c => !skip_cand env c
          && decide (cand_status env ip port ssh_opts c = 0)),
       (first_pass (skip_cand env)
           (fun c => decide (cand_status env ip port ssh_opts c = 0)) l).map
         (fun c => SSHEvent.attempt c.1 c.2)) := by
  induction l with
  | nil => rfl
  | cons c rest ih =>
    by_cases hs : skip_cand env c
    · simp [ssh_attempt_loop, first_pass, hs, ih]
    · by_cases hz : cand_status env ip port ssh_opts c = 0
      · simp [ssh_attempt_loop, first_pass, hs, hz]
      · simp [ssh_attempt_loop, first_pass, hs, hz, ih]

/-- Claim C4: a candidate whose key path is given but absent on disk is
skipped with no connection attempt, the loop continuing unchanged; in
particular with candidates [(userA, missing), (userB, none)] in direct mode
the log holds exactly one attempt, for userB. -/
theorem ssh_skip_missing_key (env : SSHEnv) (ip : String) (port : Int)
    (ssh_opts : String) (useTmux : Bool) (userA userB missingKey : String)
    (rest : List (String × Option String))
    (h : env.keyExists missingKey = false) :
    ssh_attempt_loop env ip port ssh_opts useTmux ((userA, some missingKey) :: rest)
      = ssh_attempt_loop env ip port ssh_opts useTmux rest
    ∧ (ssh_attempt_loop env ip port ssh_opts false
        [(userA, some missingKey), (userB, Option.none)]).2
      = [SSHEvent.attempt userB Option.none] := by
  have hskip : skip_cand env (userA, some missingKey) = true := by
    simp [skip_cand, h]
  constructor
  · simp [ssh_attempt_loop, hskip]
  · by_cases hz : cand_status env ip port ssh_opts (userB, Option.none) = 0 <;>
      simp [ssh_attempt_loop, hskip, skip_cand, hz, h]

/-- A concrete SSH environment for closed evaluations: no key exists on
disk, every direct `ssh` run fails with exit status 255, no tmux. -/
def envNoKeys : SSHEnv :=
  { keyExists := fun _ => false, run := fun _ => 255, tmuxSet := false
    verbose := false, ec2_username := "", ec2_sshkey := "" }

/-- Closed witness for claim C4: with the key file absent, only the second
candidate is attempted. -/
theorem ssh_skip_missing_key_witness :
    (ssh_attempt_loop envNoKeys "1.2.3.4" 22 "" false
        [("alice", some "/home/a/missing.pem"), ("bob", Option.none)]).2
      = [SSHEvent.attempt "bob" Option.none] :=
  (ssh_skip_missing_key envNoKeys "1.2.3.4" 22 "" false "alice" "bob"
      "/home/a/missing.pem" [("bob", Option.none)] rfl).2

/-- Claim C5: address selection prefers the public address; an absent
("N/A") public address falls back to the private one; with both absent the
resolver reports failure immediately, with no connection action at all. -/
theorem ssh_address_selection (env : SSHEnv) (inst : Ec2Instance)
    (user key_file : Option String) (port : Int) (ssh_opts : String)
    (use_tmux : Option Bool) :
    (inst.public_ip ≠ "N/A" → select_ip inst = some inst.public_ip)
    ∧ (inst.public_ip = "N/A" → inst.private_ip ≠ "N/A" →
        select_ip inst = some inst.private_ip)
    ∧ (inst.public_ip = "N/A" → inst.private_ip = "N/A" →
        ssh_to_instance env inst user key_file port ssh_opts use_tmux
          = (false, [])) := by
  refine ⟨fun h => by simp [select_ip, h],
    fun h1 h2 => by simp [select_ip, h1, h2],
    fun h1 h2 => by simp [ssh_to_instance, select_ip, h1, h2]⟩

/-- An instance record with neither a public nor a private address. -/
def instNoIp : Ec2Instance :=
  { name := "db-1", id := "i-02", status := "stopped", type := "t3.small"
    public_ip := "N/A", private_ip := "N/A", region := "us-east-1" }

/-- Closed witness for claim C5: both addresses absent gives immediate
failure and an empty action log. -/
theorem ssh_address_selection_witness :
    ssh_to_instance envNoKeys instNoIp Option.none Option.none 22 "" Option.none
      = (false, []) :=
  (ssh_address_selection envNoKeys instNoIp Option.none Option.none 22 ""
      Option.none).2.2 rfl rfl

/-- Claim C6, counterexample: in forced tmux mode with candidates
[("alice", some missing), ("bob", none)] and the key absent on disk, the
window handoff is made for "bob" — the first non-skipped candidate — and not
for the first candidate "alice", contrary to "delegates the connection
command of the first candidate". -/
theorem ssh_tmux_counterexample :
    ssh_attempt_loop envNoKeys "1.2.3.4" 22 "" true
        [("alice", some "/home/a/missing.pem"), ("bob", Option.none)]
      = (true, [SSHEvent.handoff "bob" Option.none])
    ∧ SSHEvent.handoff "bob" Option.none
        ≠ SSHEvent.handoff "alice" (some "/home/a/missing.pem") := by
  exact ⟨rfl, by decide⟩

/-- Claim C6 as amended: in multiplexed (tmux) mode the resolver delegates
the connection command of the first non-skipped candidate to a new terminal
window and reports success immediately without waiting, using no candidate
after it; when every candidate is skipped it reports failure with no
action. -/
theorem ssh_tmux_first_nonskipped (env : SSHEnv) (ip : String) (port : Int)
    (ssh_opts : String) (l : List (String × Option String)) :
    ssh_attempt_loop env ip port ssh_opts true l =
      match l.find? (fun c => !skip_cand env c) with
      | some c => (true, [SSHEvent.handoff c.1 c.2])
      | none => (false, []) := by
  induction l with
  | nil => rfl
  | cons c rest ih =>
    by_cases hs : skip_cand env c
    · rw [List.find?_cons_of_neg _ (by simp [hs])]
      simpa [ssh_attempt_loop, hs] using ih
    · rw [List.find?_cons_of_pos _ (by simp [hs])]
      simp [ssh_attempt_loop, hs]

/-- A non-empty string is not Python-falsy. -/
theorem isEmpty_false_of_ne {s : String} (h : s ≠ "") : s.isEmpty = false := by
  cases he : s.isEmpty
  · rfl
  · exact absurd ((String.isEmpty_iff s).mp he) h

/-- The filename with all three inputs given and non-empty: prefix, sanitized
region, underscore, truncated credential hash, suffix. The ambient session
and client lookups are never consulted. -/
theorem get_cache_filename_eq (md5hex : String → String)
    (sessionRegion : Option String) (metaRegion : String)
    (sessionCreds : Option (String × String)) (r ak sk : String)
    (hr : r ≠ "") (hak : ak ≠ "") (hsk : sk ≠ "") :
    get_cache_filename md5hex sessionRegion metaRegion sessionCreds
        (some r) (some ak) (some sk)
      = "/tmp/ec2_cache_" ++ sanitize_region r ++ "_"
          ++ cred_hash8 md5hex ak sk ++ ".json" := by
  simp [get_cache_filename, truthy, isEmpty_false_of_ne hr,
    isEmpty_false_of_ne hak, isEmpty_false_of_ne hsk]

/-- Claim C9, counterexample: the regions "us-east-1" and "us_east_1" differ
while the credentials agree, yet the derived cache filenames coincide with
certainty — the '-' → '_' sanitization collapses the two regions before the
filename is assembled — contrary to "differ with overwhelming probability". -/
theorem fingerprint_region_collision :
    get_cache_filename md5Stub Option.none "default" Option.none
        (some "us-east-1") (some "AK") (some "SK")
      = get_cache_filename md5Stub Option.none "default" Option.none
        (some "us_east_1") (some "AK") (some "SK")
    ∧ ("us-east-1" : String) ≠ "us_east_1" := by
  constructor
  · rw [get_cache_filename_eq md5Stub Option.none "default" Option.none
        "us-east-1" "AK" "SK" (by decide) (by decide) (by decide),
      get_cache_filename_eq md5Stub Option.none "default" Option.none
        "us_east_1" "AK" "SK" (by decide) (by decide) (by decide)]
    have h : sanitize_region "us-east-1" = sanitize_region "us_east_1" := by
      apply String.ext
      decide
    rw [h]
  · decide

/-- The filename determines its region component, given a fixed hash part. -/
theorem region_component_cancel (a b h : String)
    (hc : "/tmp/ec2_cache_" ++ a ++ "_" ++ h ++ ".json"
      = "/tmp/ec2_cache_" ++ b ++ "_" ++ h ++ ".json") : a = b := by
  have hd := congrArg String.data hc
  simp only [String.data_append, List.append_assoc] at hd
  have h1 := List.append_cancel_left hd
  have h2 := List.append_cancel_right h1
  exact String.ext h2

/-- The filename determines its hash component, given a fixed region part. -/
theorem hash_component_cancel (a h1 h2 : String)
    (hc : "/tmp/ec2_cache_" ++ a ++ "_" ++ h1 ++ ".json"
      = "/tmp/ec2_cache_" ++ a ++ "_" ++ h2 ++ ".json") : h1 = h2 := by
  have hd := congrArg String.data hc
  simp only [String.data_append, List.append_assoc] at hd
  have ha := List.append_cancel_left hd
  have hb := List.append_cancel_left ha
  have hcc := List.append_cancel_left hb
  have hdd := List.append_cancel_right hcc
  exact String.ext hdd

/-- Claim C9 as amended: the fingerprint is a deterministic function of the
sanitized region ('-' → '_') and the 8-character truncated hash of the
concatenated credentials — identical triples always agree; two invocations
with the same credentials and regions that differ after sanitization get
different fingerprints, as do two with the same region whose truncated
credential hashes differ; but regions equal up to sanitization collide with
certainty. -/
theorem get_cache_filename_fingerprint (md5hex : String → String)
    (sessionRegion : Option String) (metaRegion : String)
    (sessionCreds : Option (String × String)) (r r2 ak sk ak2 sk2 : String)
    (hr : r ≠ "") (hr2 : r2 ≠ "") (hak : ak ≠ "") (hsk : sk ≠ "")
    (hak2 : ak2 ≠ "") (hsk2 : sk2 ≠ "") :
    (sanitize_region r = sanitize_region r2 →
        get_cache_filename md5hex sessionRegion metaRegion sessionCreds
            (some r) (some ak) (some sk)
          = get_cache_filename md5hex sessionRegion metaRegion sessionCreds
            (some r2) (some ak) (some sk))
    ∧ (sanitize_region r ≠ sanitize_region r2 →
        get_cache_filename md5hex sessionRegion metaRegion sessionCreds
            (some r) (some ak) (some sk)
          ≠ get_cache_filename md5hex sessionRegion metaRegion sessionCreds
            (some r2) (some ak) (some sk))
    ∧ (cred_hash8 md5hex ak sk ≠ cred_hash8 md5hex ak2 sk2 →
        get_cache_filename md5hex sessionRegion metaRegion sessionCreds
            (some r) (some ak) (some sk)
          ≠ get_cache_filename md5hex sessionRegion metaRegion sessionCreds
            (some r) (some ak2) (some sk2)) := by
  rw [get_cache_filename_eq md5hex sessionRegion metaRegion sessionCreds r ak sk hr hak hsk,
    get_cache_filename_eq md5hex sessionRegion metaRegion sessionCreds r2 ak sk hr2 hak hsk,
    get_cache_filename_eq md5hex sessionRegion metaRegion sessionCreds r ak2 sk2 hr hak2 hsk2]
  exact ⟨fun h => by rw [h],
    fun h hcontra => h (region_component_cancel _ _ _ hcontra),
    fun h hcontra => h (hash_component_cancel _ _ _ hcontra)⟩

/-- Closed witness for the amended claim C9: same credentials, regions whose
sanitized forms differ, distinct fingerprints. -/
theorem get_cache_filename_fingerprint_witness :
    get_cache_filename md5Stub Option.none "default" Option.none
        (some "us-east-1") (some "AK") (some "SK")
      ≠ get_cache_filename md5Stub Option.none "default" Option.none
        (some "eu-west-2") (some "AK") (some "SK") :=
  (get_cache_filename_fingerprint md5Stub Option.none "default" Option.none
      "us-east-1" "eu-west-2" "AK" "SK" "AK" "SK" (by decide) (by decide)
      (by decide) (by decide) (by decide) (by decide)).2.1 (by decide)

/-- Bracket-class member test of CPython's `fnmatch.translate`: `a-b` is a
range; a hyphen in leading or trailing position is a literal member. -/
def classMem : List Char → Char → Bool
  | a :: '-' :: b :: rest, c => (decide (a ≤ c) && decide (c ≤ b)) || classMem rest c
  | a :: rest, c => (a == c) || classMem rest c
  | [], _ => false

/-- Scan to the closing ']' of a bracket class, returning the member chars
before it and the pattern rest after it; `none` when no ']' closes it. -/
def splitAtClose : List Char → Option (List Char × List Char)
  | [] => Option.none
  | c :: t =>
    if c = ']' then some ([], t)
    else
      match splitAtClose t with
      | some (ms, r) => some (c :: ms, r)
      | none => Option.none

/-- The body of a bracket class once the optional '!' has been consumed: a
']' in first position is a literal member; everything up to the next ']' is
the member list. -/
def parseClassCore (neg : Bool) : List Char → Option (Bool × List Char × List Char)
  | [] => Option.none
  | c :: t =>
    if c = ']' then (splitAtClose t).map (fun q => (neg, ']' :: q.1, q.2))
    else (splitAtClose (c :: t)).map (fun q => (neg, q.1, q.2))

/-- Parse a bracket class from the chars after its '[' (as
`fnmatch.translate` does): an optional leading '!' negates, a ']' right
after that is a literal member, everything up to the next ']' is the member
list; an unterminated class yields `none` and the '[' is then literal. -/
def parseClass : List Char → Option (Bool × List Char × List Char)
  | [] => Option.none
  | c :: t => if c = '!' then parseClassCore true t else parseClassCore false (c :: t)

theorem splitAtClose_length {l ms r : List Char}
    (h : splitAtClose l = some (ms, r)) : r.length < l.length := by
  induction l generalizing ms r with
  | nil => simp [splitAtClose] at h
  | cons c t ih =>
    by_cases hc : c = ']'
    · simp [splitAtClose, hc] at h
      obtain ⟨h1, h2⟩ := h
      subst h2
      exact Nat.lt_succ_self _
    · cases hst : splitAtClose t with
      | none => simp [splitAtClose, hc, hst] at h
      | some q =>
        obtain ⟨ms', r'⟩ := q
        simp [splitAtClose, hc, hst] at h
        obtain ⟨h1, h2⟩ := h
        subst h2
        exact Nat.lt_succ_of_lt (ih hst)

theorem parseClassCore_length {neg n : Bool} {l ms r : List Char}
    (h : parseClassCore neg l = some (n, ms, r)) : r.length < l.length := by
  cases l with
  | nil => simp [parseClassCore] at h
  | cons c t =>
    by_cases hc : c = ']'
    · cases hs : splitAtClose t with
      | none => simp [parseClassCore, hc, hs] at h
      | some q =>
        obtain ⟨ms0, r0⟩ := q
        simp [parseClassCore, hc, hs] at h
        obtain ⟨-, -, h3⟩ := h
        subst h3
        exact Nat.lt_succ_of_lt (splitAtClose_length hs)
    · cases hs : splitAtClose (c :: t) with
      | none => simp [parseClassCore, hc, hs] at h
      | some q =>
        obtain ⟨ms0, r0⟩ := q
        simp [parseClassCore, hc, hs] at h
        obtain ⟨-, -, h3⟩ := h
        subst h3
        exact splitAtClose_length hs

theorem parseClass_length {l : List Char} {neg : Bool} {ms r : List Char}
    (h : parseClass l = some (neg, ms, r)) : r.length < l.length := by
  cases l with
  | nil => simp [parseClass] at h
  | cons c t =>
    by_cases hb : c = '!'
    · simp only [parseClass, if_pos hb] at h
      exact Nat.lt_succ_of_lt (parseClassCore_length h)
    · simp only [parseClass, if_neg hb] at h
      exact parseClassCore_length h

/-- The '*' step: try the rest of the pattern (`f`) at every suffix of the
string. -/
def starLoop (f : List Char → Bool) : List Char → Bool
  | [] => f []
  | c :: s => f (c :: s) || starLoop f s

/-- Anchored glob matching, equivalent to CPython's
`re.match(fnmatch.translate(pat), s)` with the `(?s)` flag and `\Z` anchor:
'*' matches any run of characters, '?' any single character, '[...]' one
character of a class, anything else itself; an unterminated '[' is literal.
Recursion is on the pattern, `starLoop` walking the string. -/
def globMatch : List Char → List Char → Bool
  | [], s => s.isEmpty
  | c :: p, s =>
    if c = '*' then starLoop (fun t => globMatch p t) s
    else if c = '?' then
      match s with
      | [] => false
      | _ :: s' => globMatch p s'
    else if c = '[' then
      match hpc : parseClass p with
      | some (neg, ms, p') =>
        match s with
        | [] => false
        | d :: s' => (neg != classMem ms d) && globMatch p' s'
      | none =>
        match s with
        | [] => false
        | d :: s' => (c == d) && globMatch p s'
    else
      match s with
      | [] => false
      | d :: s' => (c == d) && globMatch p s'
  termination_by p _ => p.length
  decreasing_by
    all_goals simp_wf
    all_goals first
      | omega
      | (have hlen := parseClass_length hpc; omega)

/-- `fnmatch.fnmatch(name, pat)` on POSIX, where `os.path.normcase` is the
identity. -/
def fnmatchPy (name pat : String) : Bool := globMatch pat.data name.data

/-- `filter_instances_by_name` (lines 263-286): an empty or absent pattern
returns the list unchanged (line 273); a pattern without '*' and without '?'
is wrapped as `*pattern*` (lines 277-278); each instance's lowered name is
matched with `fnmatch` against the lowered pattern (lines 282-283), keeping
the original order. The model gives every instance a `name` field, as
`list_ec2_instances` does. -/
def filter_instances_by_name (instances : List Ec2Instance)
    (name_pattern : Option String) : List Ec2Instance :=
  if !truthy name_pattern then instances
  else
    let p := name_pattern.getD ""
    let p := if !(p.data.contains '*') && !(p.data.contains '?')
      then "*" ++ p ++ "*" else p
    instances.filter (fun i => fnmatchPy (lowerStr i.name) (lowerStr p))

/-- The predicate claim C10 describes: the pattern occurs as a
case-insensitive substring of the name. -/
def substrCI (pat name : String) : Bool :=
  hasSub (lowerStr name).data (lowerStr pat).data

theorem globMatch_nil (s : List Char) : globMatch [] s = s.isEmpty := by
  simp [globMatch]

theorem globMatch_star (p s : List Char) :
    globMatch ('*' :: p) s = starLoop (fun t => globMatch p t) s := by
  conv_lhs => rw [globMatch.eq_def]
  rfl

theorem globMatch_cons_nil {c : Char} (h1 : c ≠ '*') (p : List Char) :
    globMatch (c :: p) [] = false := by
  simp only [globMatch, if_neg h1]
  by_cases h2 : c = '?'
  · simp [h2]
  · simp only [if_neg h2]
    by_cases h3 : c = '['
    · simp only [if_pos h3]
      split <;> rfl
    · simp only [if_neg h3]

theorem globMatch_lit_cons {c : Char} (h1 : c ≠ '*') (h2 : c ≠ '?') (h3 : c ≠ '[')
    (p : List Char) (d : Char) (s : List Char) :
    globMatch (c :: p) (d :: s) = ((c == d) && globMatch p s) := by
  simp only [globMatch, if_neg h1, if_neg h2, if_neg h3]

theorem globMatch_bracket_cons {p : List Char} {neg : Bool} {ms p' : List Char}
    (hpc : parseClass p = some (neg, ms, p')) (d : Char) (s : List Char) :
    globMatch ('[' :: p) (d :: s) = ((neg != classMem ms d) && globMatch p' s) := by
  simp only [globMatch]
  split
  · rename_i heq
    exact absurd heq (by decide)
  · split
    · rename_i heq
      exact absurd heq (by decide)
    · split
      · split
        · rename_i neg2 ms2 p2 heq
          rw [hpc] at heq
          injection heq with h'
          injection h' with e1 h''
          injection h'' with e2 e3
          subst e1
          subst e2
          subst e3
          rfl
        · rename_i heq
          rw [hpc] at heq
          simp at heq
      · rename_i heq
        exact absurd trivial heq

theorem starLoop_eq_true_iff (f : List Char → Bool) (s : List Char) :
    starLoop f s = true ↔ ∃ s1 s2, s = s1 ++ s2 ∧ f s2 = true := by
  induction s with
  | nil =>
    constructor
    · intro h
      exact ⟨[], [], rfl, h⟩
    · rintro ⟨s1, s2, heq, hf⟩
      cases s1 with
      | nil =>
        simp at heq
        subst heq
        exact hf
      | cons a t => simp at heq
  | cons c s ih =>
    constructor
    · intro h
      rcases Bool.or_eq_true_iff.mp (by simpa [starLoop] using h) with h' | h'
      · exact ⟨[], c :: s, rfl, h'⟩
      · obtain ⟨s1, s2, heq, hf⟩ := ih.mp h'
        exact ⟨c :: s1, s2, by rw [heq]; rfl, hf⟩
    · rintro ⟨s1, s2, heq, hf⟩
      cases s1 with
      | nil =>
        simp at heq
        show (f (c :: s) || starLoop f s) = true
        rw [← heq] at hf
        simp [hf]
      | cons a t =>
        injection heq with e1 e2
        show (f (c :: s) || starLoop f s) = true
        have : starLoop f s = true := ih.mpr ⟨t, s2, e2, hf⟩
        simp [this]

theorem isStart_iff (p : List Char) : ∀ s, isStart p s = true ↔ ∃ t, s = p ++ t := by
  induction p with
  | nil =>
    intro s
    constructor
    · intro _
      exact ⟨s, rfl⟩
    · intro _
      rfl
  | cons c p ih =>
    intro s
    cases s with
    | nil =>
      simp [isStart]
    | cons d s =>
      rw [show isStart (c :: p) (d :: s) = ((c == d) && isStart p s) from rfl]
      simp only [Bool.and_eq_true, beq_iff_eq, ih s]
      constructor
      · rintro ⟨rfl, t, rfl⟩
        exact ⟨t, rfl⟩
      · rintro ⟨t, heq⟩
        injection heq with e1 e2
        exact ⟨e1.symm, t, e2⟩

theorem hasSub_iff (s p : List Char) : hasSub s p = true ↔ ∃ u v, s = u ++ (p ++ v) := by
  induction s with
  | nil =>
    rw [show hasSub [] p = isStart p [] from rfl, isStart_iff p []]
    constructor
    · rintro ⟨t, ht⟩
      exact ⟨[], t, ht⟩
    · rintro ⟨u, v, huv⟩
      cases u with
      | nil => exact ⟨v, by simpa using huv⟩
      | cons a t => simp at huv
  | cons c s ih =>
    rw [show hasSub (c :: s) p = (isStart p (c :: s) || hasSub s p) from rfl]
    rw [Bool.or_eq_true_iff, isStart_iff p (c :: s), ih]
    constructor
    · rintro (⟨t, ht⟩ | ⟨u, v, huv⟩)
      · exact ⟨[], t, by simpa using ht⟩
      · exact ⟨c :: u, v, by rw [huv]; rfl⟩
    · rintro ⟨u, v, huv⟩
      cases u with
      | nil => exact Or.inl ⟨v, by simpa using huv⟩
      | cons a t =>
        injection huv with e1 e2
        exact Or.inr ⟨t, v, e2⟩

theorem hasSub_nil_pat (s : List Char) : hasSub s [] = true := by
  cases s <;> simp [hasSub, isStart]

theorem glob_lit_star : ∀ (p : List Char),
    (∀ c ∈ p, c ≠ '*' ∧ c ≠ '?' ∧ c ≠ '[') →
    ∀ s, (globMatch (p ++ ['*']) s = true ↔ isStart p s = true) := by
  intro p
  induction p with
  | nil =>
    intro _ s
    rw [List.nil_append, globMatch_star]
    constructor
    · intro _
      rfl
    · intro _
      rw [starLoop_eq_true_iff]
      exact ⟨s, [], by simp, by rw [globMatch_nil]; rfl⟩
  | cons c p ih =>
    intro hp s
    obtain ⟨h1, h2, h3⟩ := hp c (List.mem_cons_self c p)
    have hp' : ∀ x ∈ p, x ≠ '*' ∧ x ≠ '?' ∧ x ≠ '[' :=
      fun x hx => hp x (List.mem_cons_of_mem c hx)
    cases s with
    | nil =>
      rw [List.cons_append, globMatch_cons_nil h1]
      simp [isStart]
    | cons d s =>
      rw [List.cons_append, globMatch_lit_cons h1 h2 h3]
      rw [show isStart (c :: p) (d :: s) = ((c == d) && isStart p s) from rfl]
      simp only [Bool.and_eq_true, beq_iff_eq]
      exact and_congr Iff.rfl (ih hp' s)

theorem glob_wrap {q : List Char} (hq : ∀ c ∈ q, c ≠ '*' ∧ c ≠ '?' ∧ c ≠ '[')
    (n : List Char) : globMatch ('*' :: (q ++ ['*'])) n = hasSub n q := by
  have hiff : globMatch ('*' :: (q ++ ['*'])) n = true ↔ hasSub n q = true := by
    rw [globMatch_star, starLoop_eq_true_iff, hasSub_iff]
    constructor
    · rintro ⟨s1, s2, rfl, hf⟩
      obtain ⟨t, rfl⟩ := (isStart_iff q s2).mp ((glob_lit_star q hq s2).mp hf)
      exact ⟨s1, t, rfl⟩
    · rintro ⟨u, v, rfl⟩
      exact ⟨u, q ++ v, rfl,
        (glob_lit_star q hq _).mpr ((isStart_iff q _).mpr ⟨v, rfl⟩)⟩
  cases hA : globMatch ('*' :: (q ++ ['*'])) n <;> cases hB : hasSub n q <;> simp_all

theorem toLower_nonspecial {c : Char} (h1 : c ≠ '*') (h2 : c ≠ '?') (h3 : c ≠ '[') :
    Char.toLower c ≠ '*' ∧ Char.toLower c ≠ '?' ∧ Char.toLower c ≠ '[' := by
  by_cases h : c.toNat ≥ 65 ∧ c.toNat ≤ 90
  · obtain ⟨ha, hb⟩ := h
    have hout : Char.toLower c = Char.ofNat (c.toNat + 32) := by
      simp only [Char.toLower]
      rw [if_pos ⟨ha, hb⟩]
    rw [hout]
    revert ha hb
    generalize c.toNat = n
    intro ha hb
    interval_cases n <;> exact (by decide)
  · have hout : Char.toLower c = c := by
      simp only [Char.toLower]
      rw [if_neg h]
    rw [hout]
    exact ⟨h1, h2, h3⟩

theorem map_toLower_nonspecial {p : List Char}
    (hp : ∀ c ∈ p, c ≠ '*' ∧ c ≠ '?' ∧ c ≠ '[') :
    ∀ c ∈ p.map Char.toLower, c ≠ '*' ∧ c ≠ '?' ∧ c ≠ '[' := by
  intro c hc
  obtain ⟨d, hd, rfl⟩ := List.mem_map.mp hc
  exact toLower_nonspecial (hp d hd).1 (hp d hd).2.1 (hp d hd).2.2

/-- The wrapped, lowered pattern seen by `fnmatch`, as a char list. -/
theorem lower_wrap_data (p : String) :
    (lowerStr ("*" ++ p ++ "*")).data
      = '*' :: (p.data.map Char.toLower ++ ['*']) := by
  show (("*" ++ p ++ "*").data.map Char.toLower) = '*' :: (p.data.map Char.toLower ++ ['*'])
  rw [String.data_append, String.data_append,
    (rfl : "*".data = ['*']), List.map_append, List.map_append]
  simp [(by decide : Char.toLower '*' = '*')]

/-- Claim C10 as amended: an absent (or empty) pattern returns the list
unchanged; for a pattern containing none of '*', '?' and '[' — '[' opens an
`fnmatch` character class, so it is excluded along with the two wildcards —
an instance is kept iff the pattern occurs as a case-insensitive substring
of its name, and the surviving instances keep their original relative order
(the result is a filter of the input list). -/
theorem filter_by_name_substring (instances : List Ec2Instance) (p : String)
    (hp : ∀ c ∈ p.data, c ≠ '*' ∧ c ≠ '?' ∧ c ≠ '[') :
    filter_instances_by_name instances (some p)
      = instances.filter (fun i => substrCI p i.name)
    ∧ filter_instances_by_name instances Option.none = instances := by
  refine ⟨?_, rfl⟩
  have hq : ∀ nm : String,
      fnmatchPy (lowerStr nm) (lowerStr ("*" ++ p ++ "*")) = substrCI p nm := by
    intro nm
    show globMatch (lowerStr ("*" ++ p ++ "*")).data (lowerStr nm).data = substrCI p nm
    rw [lower_wrap_data p, glob_wrap (map_toLower_nonspecial hp)]
    rfl
  by_cases hpe : p = ""
  · subst hpe
    have hl : filter_instances_by_name instances (some "") = instances := rfl
    rw [hl]
    symm
    rw [show (fun (i : Ec2Instance) => substrCI "" i.name) = (fun _ => true) from
      funext (fun i => hasSub_nil_pat _)]
    exact List.filter_true instances
  · have htr : truthy (some p) = true := by
      simp [truthy, isEmpty_false_of_ne hpe]
    have hm1 : '*' ∉ p.data := fun hmem => (hp _ hmem).1 rfl
    have hm2 : '?' ∉ p.data := fun hmem => (hp _ hmem).2.1 rfl
    have hmain : filter_instances_by_name instances (some p)
        = instances.filter
            (fun i => fnmatchPy (lowerStr i.name) (lowerStr ("*" ++ p ++ "*"))) := by
      unfold filter_instances_by_name
      rw [htr]
      simp [hm1, hm2]
    rw [hmain]
    exact List.filter_congr (fun x _ => hq x.name)

/-- An instance named "ab", used in closed evaluations. -/
def instAB : Ec2Instance :=
  { name := "ab", id := "i-03", status := "running", type := "t2.nano"
    public_ip := "N/A", private_ip := "10.0.0.7", region := "us-east-1" }

/-- Claim C10, counterexample: the pattern "a[b]" contains neither '*' nor
'?', yet the instance named "ab" is kept — `fnmatch` honors the bracket
class `[b]` — while "a[b]" is not a (case-insensitive) substring of "ab",
contradicting "kept if and only if the pattern occurs as a substring". -/
theorem filter_bracket_counterexample :
    filter_instances_by_name [instAB] (some "a[b]") = [instAB]
    ∧ substrCI "a[b]" "ab" = false
    ∧ instAB.name = "ab" := by
  refine ⟨?_, by decide, rfl⟩
  have h4 : globMatch ('*' :: []) ([] : List Char) = true := by
    rw [globMatch_star]
    show globMatch [] [] = true
    rw [globMatch_nil]
    rfl
  have h3 : globMatch ('[' :: 'b' :: ']' :: '*' :: []) ('b' :: []) = true := by
    rw [globMatch_bracket_cons
      (show parseClass ('b' :: ']' :: '*' :: []) = some (false, ['b'], ['*']) from rfl)]
    rw [h4]
    decide
  have h2 : globMatch ('a' :: '[' :: 'b' :: ']' :: '*' :: []) ('a' :: 'b' :: []) = true := by
    rw [globMatch_lit_cons (by decide) (by decide) (by decide)]
    rw [h3]
    decide
  have hglob : globMatch ('*' :: ('a' :: '[' :: 'b' :: ']' :: '*' :: []))
      ('a' :: 'b' :: []) = true := by
    rw [globMatch_star]
    show (globMatch ('a' :: '[' :: 'b' :: ']' :: '*' :: []) ('a' :: 'b' :: [])
      || starLoop (fun t => globMatch ('a' :: '[' :: 'b' :: ']' :: '*' :: []) t)
        ('b' :: [])) = true
    rw [h2]
    rfl
  have hpred : fnmatchPy (lowerStr instAB.name) (lowerStr "*a[b]*") = true := by
    show globMatch (lowerStr "*a[b]*").data (lowerStr instAB.name).data = true
    rw [show (lowerStr "*a[b]*").data
        = '*' :: ('a' :: '[' :: 'b' :: ']' :: '*' :: []) from by decide]
    rw [show (lowerStr instAB.name).data = 'a' :: 'b' :: [] from by decide]
    exact hglob
  have hfil : List.filter
      (fun i => fnmatchPy (lowerStr i.name) (lowerStr "*a[b]*"))
      [instAB] = [instAB] := by
    simp [List.filter_cons, hpred]
  exact hfil

/-- Closed witness for the amended claim C10: pattern "WEB" keeps exactly the
instance whose name contains "web" case-insensitively. -/
theorem filter_by_name_substring_witness :
    filter_instances_by_name [inst1, instAB] (some "WEB") = [inst1] := by
  have h := filter_by_name_substring [inst1, instAB] "WEB" (by decide)
  rw [h.1]
  decide

end EC2
